import Mathlib

/-!
Verification of the Restic-Wings backup orchestration layer
(`internal/api/restic/*.go`) against its natural-language specification.

The Go code is shallowly embedded: strings are Lean `String`s handled at the
character-list level (restic identifiers and all strings the code inspects are
ASCII, so Go's byte indexing coincides with character indexing), times are
`Int` seconds, the file system and subprocess outcomes are explicit inputs,
and each handler's externally visible behaviour (response, state written,
commands invoked) is a pure function of those inputs.
-/

namespace ResticWings

/-! ## Character-list models of the `strings` package helpers used by the code -/

/-- Model of Go `strings.HasPrefix` on character lists. -/
def listHasPfx : List Char → List Char → Bool
  | [], _ => true
  | _ :: _, [] => false
  | p :: ps, c :: cs => p == c && listHasPfx ps cs

/-- Model of Go `strings.HasPrefix`. -/
def goHasPfx (pat s : String) : Bool :=
  listHasPfx pat.toList s.toList

/-- Index of the first occurrence of `pat` in `l`; model of Go `strings.Index`
(`none` for Go's `-1`). -/
def idxOfSub (l pat : List Char) : Option Nat :=
  match l with
  | [] => if pat.isEmpty then some 0 else none
  | _ :: rest =>
      if listHasPfx pat l then some 0
      else (idxOfSub rest pat).map (· + 1)

/-- Model of Go `strings.Contains`. -/
def goContains (s sub : String) : Bool :=
  (idxOfSub s.toList sub.toList).isSome

/-- Model of Go `strings.ToLower` (the code only inspects ASCII text). -/
def goToLower (s : String) : String :=
  String.mk (s.toList.map Char.toLower)

/-- Go `unicode.IsSpace` restricted to the ASCII white-space characters that
occur in the trimmed data (key files and diagnostics are ASCII). -/
def isSpaceChar (c : Char) : Bool :=
  c == ' ' || c == '\t' || c == '\n' || c == '\x0b' || c == '\x0c' || c == '\r'

/-- Model of Go `strings.TrimSpace`. -/
def goTrimSpace (s : String) : String :=
  String.mk (((s.toList.dropWhile isSpaceChar).reverse.dropWhile isSpaceChar).reverse)

/-! ## `resolveResticKey` (backups.go:559-575)

The key file of a repository location is modelled as `Option String`
(`none` = the file does not exist / cannot be read).  The function returns
the resolved key together with the key-file content after the call
(`os.WriteFile` errors are ignored by the code, so a write is modelled as
always taking effect). -/

def resolveResticKey (repo : String) (keyFile : Option String) (provided : String) :
    Except String (String × Option String) :=
  if repo = "" then .error "missing repo"
  else
    match keyFile with
    | some data =>
        let stored := goTrimSpace data
        if stored ≠ "" then .ok (stored, some data)
        else if provided = "" then .error "missing encryption key"
        else .ok (provided, some (provided ++ "\n"))
    | none =>
        if provided = "" then .error "missing encryption key"
        else .ok (provided, some (provided ++ "\n"))

/-- The stored key of a key-file state: the trimmed content when it is
non-empty, and `none` otherwise (the code treats a missing, unreadable or
whitespace-only file alike). -/
def storedKey (keyFile : Option String) : Option String :=
  match keyFile with
  | none => none
  | some data => if goTrimSpace data ≠ "" then some (goTrimSpace data) else none

/-! ## Execution environments (C9)

`buildResticEnv` (backups.go:765-776) strips every inherited variable whose
name begins with `RESTIC_PASSWORD` and appends a single fresh copy.  The
restore handler (restore.go, `run` closure) and
`prepareServerResticBackupInternal` (prepare.go:207) instead do
`append(os.Environ(), "RESTIC_PASSWORD="+key)` without stripping. -/

def secretVar : String := "RESTIC_PASSWORD"

def buildResticEnv (base : List String) (encryptionKey : String) : List String :=
  (base.filter (fun v => !(goHasPfx secretVar v))) ++ [secretVar ++ "=" ++ encryptionKey]

/-- Environment built by the restore handler and by the prepare internals:
the key is appended to the inherited environment without stripping. -/
def appendKeyEnv (base : List String) (encryptionKey : String) : List String :=
  base ++ [secretVar ++ "=" ++ encryptionKey]

/-- Number of copies of the secret-key variable proper (`RESTIC_PASSWORD=...`)
in an execution environment. -/
def countSecretCopies (env : List String) : Nat :=
  env.countP (fun v => goHasPfx (secretVar ++ "=") v)

/-! ## Status records (Status Store, Concurrency Guard)

A status record file holds `{status, started_at, finished_at, message}` with
the time fields RFC3339 strings.  A time field is modelled by its parse
classification: the empty string, an unparseable string, or a parsed instant
(`Int` seconds).  A store cell is `Option StatusRec`, `none` covering both an
absent file and a read/JSON error (the readers treat them alike). -/

inductive TimeField where
  | empty : TimeField
  | invalid (raw : String) : TimeField
  | valid (t : Int) : TimeField
deriving DecidableEq

structure StatusRec where
  status : String
  startedAt : TimeField := .empty
  finishedAt : TimeField := .empty
  message : String := ""
deriving DecidableEq

/-- The 6-hour staleness window, in seconds. -/
def staleWindow : Int := 21600

def staleBackupMsg : String := "Backup appears stale. Please retry."

def staleRestoreMsg : String := "Restore appears stale. Please retry."

/-- Rewrite a record as the stale-reaper does: status `failed`, finish time
now, and the stale message if none was recorded. -/
def markStale (r : StatusRec) (now : Int) (msg : String) : StatusRec :=
  { r with
      status := "failed"
      finishedAt := .valid now
      message := if r.message = "" then msg else r.message }

/-- Outcome of the pre-flight running check: `conflict` answers 409 and stops
(no tool invocation, no background task is started); `proceed` lets the
handler continue against the store state it carries. -/
inductive GuardResult where
  | conflict (store : Option StatusRec)
  | proceed (store : Option StatusRec)
deriving DecidableEq

/-- Pre-flight check shared verbatim (modulo the stale message) by
`CreateServerResticBackup` (backups.go:26-44) and
`RestoreServerResticBackupHandler` (restore.go:102-120). -/
def runningGuard (staleMsg : String) (store : Option StatusRec) (now : Int) : GuardResult :=
  match store with
  | none => .proceed none
  | some r =>
      if r.status = "running" then
        match r.startedAt with
        | .empty => .conflict (some r)
        | .invalid _ => .proceed (some r)
        | .valid t =>
            if now - t ≤ staleWindow then .conflict (some r)
            else .proceed (some (markStale r now staleMsg))
      else .proceed (some r)

def createBackupGuard : Option StatusRec → Int → GuardResult :=
  runningGuard staleBackupMsg

def restoreGuard : Option StatusRec → Int → GuardResult :=
  runningGuard staleRestoreMsg

def idleRec : StatusRec := { status := "idle" }

/-- Status reader shared (modulo the stale message) by
`GetServerResticBackupStatus` (backups.go:875-902) and
`GetServerResticRestoreStatus` (restore.go:173-200): returns the response
record and the store state after the read. -/
def statusReadWithStale (staleMsg : String) (store : Option StatusRec) (now : Int) :
    StatusRec × Option StatusRec :=
  match store with
  | none => (idleRec, none)
  | some r =>
      if r.status = "" then (idleRec, some r)
      else if r.status = "running" then
        match r.startedAt with
        | .valid t =>
            if now - t > staleWindow then
              let r' := markStale r now staleMsg
              (r', some r')
            else (r, some r)
        | _ => (r, some r)
      else (r, some r)

def backupStatusRead : Option StatusRec → Int → StatusRec × Option StatusRec :=
  statusReadWithStale staleBackupMsg

def restoreStatusRead : Option StatusRec → Int → StatusRec × Option StatusRec :=
  statusReadWithStale staleRestoreMsg

/-- Reader of the prepare/download status
(`GetServerResticBackupPrepareStatus`, prepare.go:78-91): no staleness
handling at all — the record is returned as stored and never rewritten. -/
def prepareStatusRead (store : Option StatusRec) : StatusRec × Option StatusRec :=
  match store with
  | none => (idleRec, none)
  | some r => if r.status = "" then (idleRec, some r) else (r, some r)

/-! ## Retention Engine (`CreateServerResticBackup`, backups.go:112-243)

A listed snapshot carries `id`, `short_id` (`""` when the JSON field is
absent), a creation time (parsed; `Int` seconds, `0` for an unparseable
string, matching `parseTime` returning the zero time) and an optional tag
list (`none` when the JSON object has no `tags` key).  The `--tag locked`
fallback query's parsed result is a further input (`none` = the command or
its JSON parse failed, leaving the locked set empty).  `forget --prune`
invocations are modelled by the list of snapshot ids they are issued for, in
order; the code runs them one per id before creating the new snapshot. -/

structure Snap where
  id : String
  shortId : String
  time : Int
  tags : Option (List String)
deriving DecidableEq

/-- `hasLockedTag` from the Go code. -/
def hasLockedTag (tags : List String) : Bool :=
  tags.contains "locked"

/-- Model of Go `id[:8]` (restic ids are ASCII hex). -/
def take8 (s : String) : String :=
  String.mk (s.toList.take 8)

/-- The keys a snapshot contributes to the `lockedIDs` set: its id, the
8-character prefix of its id, and its short id (each when non-empty). -/
def idKeys (s : Snap) : List String :=
  (if s.id ≠ "" then [s.id] ++ (if 8 ≤ s.id.length then [take8 s.id] else []) else [])
    ++ (if s.shortId ≠ "" then [s.shortId] else [])

/-- A snapshot is protected iff its tag set contains the sentinel tag. -/
def isProtected (s : Snap) : Bool :=
  hasLockedTag (s.tags.getD [])

/-- Loop body building `lockedIDs` from tags inlined in the listing. -/
def inlineBody (acc : List String) (s : Snap) : List String :=
  match s.tags with
  | some ts => if hasLockedTag ts then acc ++ idKeys s else acc
  | none => acc

/-- `lockedIDs` built from tags inlined in the snapshot listing. -/
def lockedIdsInline (snaps : List Snap) : List String :=
  snaps.foldl inlineBody []

/-- The keys contributed by one snapshot when it is protected. -/
def protKeys (s : Snap) : List String :=
  if isProtected s then idKeys s else []

/-- `lockedIDs` built from the `--tag locked` fallback query. -/
def lockedIdsFallback (fallback : Option (List Snap)) : List String :=
  match fallback with
  | some l => l.foldl (fun acc s => acc ++ idKeys s) []
  | none => []

/-- The effective short id used when filtering (`shortID = id[:8]` when the
listing omitted `short_id`). -/
def effShort (s : Snap) : String :=
  if s.id ≠ "" ∧ 8 ≤ s.id.length ∧ s.shortId = "" then take8 s.id else s.shortId

/-- The `unlocked` slice: (id, time) of every snapshot that is not in the
locked set and has a non-empty id. -/
def unlockedSnaps (snaps : List Snap) (locked : List String) : List (String × Int) :=
  snaps.filterMap
    (fun s =>
      if (s.id ≠ "" ∧ locked.contains s.id) ∨ (effShort s ≠ "" ∧ locked.contains (effShort s)) then
        none
      else if s.id = "" then none
      else some (s.id, s.time))

/-- `sort.Slice(unlocked, ...Time.Before...)`: ascending by creation time. -/
def sortByTime (l : List (String × Int)) : List (String × Int) :=
  l.insertionSort (fun a b => a.2 ≤ b.2)

inductive RetentionOutcome where
  | skipped
  | allLocked
  | deleted (ids : List String)
deriving DecidableEq

/-- The count-ceiling retention pass run before a new snapshot is created.
`skipped` = no ceiling configured or below the ceiling; `allLocked` = the
request is rejected with "backup limit reached and all snapshots are locked"
and nothing is deleted; `deleted ids` = one `forget --prune` per listed id,
in order, then the backup proceeds. -/
def retentionPrune (snaps : List Snap) (fallback : Option (List Snap)) (maxBackups : Nat) :
    RetentionOutcome :=
  if maxBackups = 0 then .skipped
  else if snaps.length < maxBackups then .skipped
  else
    let locked :=
      if snaps.any (fun s => s.tags.isSome) then lockedIdsInline snaps
      else lockedIdsFallback fallback
    let unlocked := sortByTime (unlockedSnaps snaps locked)
    if unlocked = [] then .allLocked
    else .deleted ((unlocked.take (snaps.length - maxBackups + 1)).map Prod.fst)

/-! ## `resolveSnapshotID` (backups.go:1081-1108)

The snapshot listing is `none` when the `snapshots --json` command fails or
its output does not parse; otherwise the list of (id, short_id) records
(`""` for an absent or non-string field). -/

structure SnapId where
  id : String
  shortId : String
deriving DecidableEq

/-- The match test the resolution loop applies to one listed snapshot: the
code returns `s.id` for the first snapshot whose non-empty full id equals the
query or has it as its 8-character prefix, or whose non-empty short id equals
the query while its full id is non-empty. -/
def snapMatches (s : SnapId) (backupId : String) : Bool :=
  (decide (s.id ≠ "") && (s.id == backupId || (decide (8 ≤ s.id.length) && take8 s.id == backupId)))
    || (decide (s.shortId ≠ "") && s.shortId == backupId && decide (s.id ≠ ""))

def resolveSnapshotList (l : List SnapId) (backupId : String) : String :=
  match l with
  | [] => backupId
  | s :: rest => if snapMatches s backupId then s.id else resolveSnapshotList rest backupId

def resolveSnapshotID (listing : Option (List SnapId)) (backupId : String) : String :=
  if backupId = "" then ""
  else
    match listing with
    | none => backupId
    | some l => resolveSnapshotList l backupId

/-! ## Archive Cache: `prepareServerResticBackupInternal` (prepare.go:186-246)

The subprocess steps are the `restic restore` into the scratch directory and
the `tar` compression; the function's behaviour is a function of their
outcomes and of whether the cache file already exists non-empty (the
`os.Stat(tarZstFile)` check).  The trace records the subprocess steps in the
order they are invoked.  Directory bookkeeping (`MkdirAll`, the `RemoveAll`
cleanups of the scratch directory) does not affect the claims and is
elided. -/

inductive PCmd where
  | restore
  | tar
deriving DecidableEq

structure PrepEnv where
  backupId : String
  encryptionKey : String
  ownerUsername : String
  /-- the `restic restore` into the scratch directory succeeds -/
  restoreOk : Bool
  /-- `os.Stat(tarZstFile)` succeeds with `Size() > 0` -/
  cacheNonEmpty : Bool
  /-- the `tar -I zstd` compression succeeds -/
  tarOk : Bool
deriving DecidableEq

def prepareInternal (e : PrepEnv) : List PCmd × Except String Unit :=
  if e.backupId = "" then ([], .error "missing backup_id")
  else if e.encryptionKey = "" ∨ e.ownerUsername = "" then
    ([], .error "missing encryption_key or owner_username")
  else if ¬e.restoreOk then ([.restore], .error "restic restore failed")
  else if e.cacheNonEmpty then ([.restore], .ok ())
  else if ¬e.tarOk then ([.restore, .tar], .error "archive failed")
  else ([.restore, .tar], .ok ())

/-! ## Failure classification and lock-timestamp parsing (backups.go:778-826) -/

def isKeyMismatchError (output : String) : Bool :=
  let lower := goToLower output
  goContains lower "ciphertext verification failed"
    || goContains lower "wrong password"
    || goContains lower "config or key"

def isRepoLockedError (output : String) : Bool :=
  let lower := goToLower output
  goContains lower "repository is already locked"
    || goContains lower "unable to create lock"

def daysInMonth (y : Int) (m : Nat) : Nat :=
  if m = 2 then (if (y % 4 = 0 ∧ y % 100 ≠ 0) ∨ y % 400 = 0 then 29 else 28)
  else if m = 4 ∨ m = 6 ∨ m = 9 ∨ m = 11 then 30
  else 31

/-- Civil date to days since 1970-01-01 (proleptic Gregorian; the standard
era-based computation, equivalent to Go's absolute-time arithmetic). -/
def daysFromCivil (y : Int) (m : Nat) (d : Nat) : Int :=
  let y' : Int := if m ≤ 2 then y - 1 else y
  let era : Int := (if 0 ≤ y' then y' else y' - 399) / 400
  let yoe : Int := y' - era * 400
  let mp : Int := (Int.ofNat m + 9) % 12
  let doy : Int := (153 * mp + 2) / 5 + Int.ofNat d - 1
  let doe : Int := yoe * 365 + yoe / 4 - yoe / 100 + doy
  era * 146097 + doe - 719468

def digitVal (c : Char) : Nat :=
  c.toNat - 48

/-- Model of Go `time.Parse("2006-01-02 15:04:05", ts)`, as seconds since the
Unix epoch (the layout has no zone, so Go reads it as UTC). -/
def parseDateTimeSeconds (s : String) : Option Int :=
  match s.toList with
  | [y1, y2, y3, y4, q1, a1, a2, q2, b1, b2, sp, h1, h2, r1, m1, m2, r2, s1, s2] =>
      if q1 = '-' ∧ q2 = '-' ∧ sp = ' ' ∧ r1 = ':' ∧ r2 = ':'
          ∧ [y1, y2, y3, y4, a1, a2, b1, b2, h1, h2, m1, m2, s1, s2].all Char.isDigit then
        let y : Nat := digitVal y1 * 1000 + digitVal y2 * 100 + digitVal y3 * 10 + digitVal y4
        let mo : Nat := digitVal a1 * 10 + digitVal a2
        let da : Nat := digitVal b1 * 10 + digitVal b2
        let h : Nat := digitVal h1 * 10 + digitVal h2
        let mi : Nat := digitVal m1 * 10 + digitVal m2
        let se : Nat := digitVal s1 * 10 + digitVal s2
        if 1 ≤ mo ∧ mo ≤ 12 ∧ 1 ≤ da ∧ da ≤ daysInMonth (Int.ofNat y) mo
            ∧ h ≤ 23 ∧ mi ≤ 59 ∧ se ≤ 59 then
          some (daysFromCivil (Int.ofNat y) mo da * 86400
            + Int.ofNat (h * 3600 + mi * 60 + se))
        else none
      else none
  | _ => none

def lockCreatedMarker : String := "lock was created at "

/-- `parseLockCreatedAt` (backups.go:791-810). -/
def parseLockCreatedAt (output : String) : Option Int :=
  match idxOfSub output.toList lockCreatedMarker.toList with
  | none => none
  | some idx =>
      let rest := output.toList.drop (idx + lockCreatedMarker.length)
      let stop :=
        match idxOfSub rest [' ', '('] with
        | none => rest.length
        | some e => e
      let ts := goTrimSpace (String.mk (rest.take stop))
      if ts = "" then none
      else parseDateTimeSeconds ts

/-! ## Recovery Heuristics: `runBackupWithRecovery` (backups.go:828-866)

Inputs are the repository path, the current instant, and the environment
outcomes: the combined output and success of the first `restic backup`, the
success of a `restic unlock`, the age of `repo/config` (`none` = `os.Stat`
failed), the `du -sb` repository size (`none` = failed), the success of
`reinitRepo`'s `init` step, and the output/success of the retried backup.
The trace lists the subprocess steps performed; `reinit` stands for
`reinitRepo`, whose first action is `os.RemoveAll(repo)` — its presence in
the trace is exactly "the repository was destroyed". -/

inductive RCmd where
  | backup
  | unlock
  | reinit
  | retryBackup
deriving DecidableEq

structure RecoveryEnv where
  firstOut : String
  firstOk : Bool
  unlockOk : Bool
  /-- `now` minus the mod-time of `repo/config`; `none` when the stat fails -/
  configAge : Option Int
  /-- `du -sb` total; `none` when it fails or does not parse -/
  repoSize : Option Int
  reinitOk : Bool
  retryOut : String
  retryOk : Bool
deriving DecidableEq

/-- `isRecentRepo repo window` (backups.go:976-982) with the stat outcome
made explicit. -/
def isRecentRepo (configAge : Option Int) (window : Int) : Bool :=
  match configAge with
  | none => false
  | some a => a ≤ window

/-- `isSafeToReinitRepo` (backups.go:984-993): at most 1 MiB on disk. -/
def isSafeToReinitRepo (repo : String) (repoSize : Option Int) : Bool :=
  if repo = "" then false
  else
    match repoSize with
    | none => false
    | some sz => sz ≤ 1048576

/-- `tryUnlockStaleLock` (backups.go:812-826): the unlock commands run and
whether the caller may retry. -/
def tryUnlockStaleLock (now : Int) (unlockOk : Bool) (output : String) : List RCmd × Bool :=
  match parseLockCreatedAt output with
  | none => ([], false)
  | some t =>
      if now - t < 1800 then ([], false)
      else ([.unlock], unlockOk)

def runBackupWithRecovery (repo : String) (now : Int) (e : RecoveryEnv) :
    List RCmd × String × Bool :=
  if e.firstOk then ([.backup], e.firstOut, true)
  else
    let ul := if isRepoLockedError e.firstOut then tryUnlockStaleLock now e.unlockOk e.firstOut
              else ([], false)
    if isRepoLockedError e.firstOut ∧ ul.2 then
      ([.backup] ++ ul.1 ++ [.retryBackup], e.retryOut, e.retryOk)
    else if isKeyMismatchError e.firstOut ∧ isRecentRepo e.configAge 120
        ∧ isSafeToReinitRepo repo e.repoSize then
      if e.reinitOk then ([.backup] ++ ul.1 ++ [.reinit, .retryBackup], e.retryOut, e.retryOk)
      else ([.backup] ++ ul.1 ++ [.reinit], e.firstOut, false)
    else ([.backup] ++ ul.1, e.firstOut, false)

/-- The synchronous caller's classification of a failed backup
(backups.go:257-266): a locked-repository diagnostic is answered 409
("repo busy"), anything else 500. -/
inductive BackupFailureResp where
  | conflictBusy
  | serverError
deriving DecidableEq

def classifyBackupFailure (out : String) : BackupFailureResp :=
  if isRepoLockedError out then .conflictBusy else .serverError

/-! ## Archive browsing (`archive.go`)

`safeArchivePath` validates an externally supplied archive id against the
allow-list pattern and a join-then-`Rel` containment check.  `filepath.Clean`,
`filepath.Join` and `filepath.Rel` are embedded for Unix paths at the
path-segment level, following the Go `path/filepath` algorithms. -/

/-- Split a character list at every `'/'` (boundary segments may be empty). -/
def splitSegs : List Char → List (List Char)
  | [] => [[]]
  | c :: rest =>
      let r := splitSegs rest
      if c = '/' then [] :: r
      else
        match r with
        | [] => [[c]]
        | h :: t => (c :: h) :: t

/-- One step of the element-processing loop of Go `filepath.Clean`: drop
empty and `"."` segments, resolve `".."` against the output stack. -/
def cleanStep (rooted : Bool) (out : List (List Char)) (seg : List Char) : List (List Char) :=
  if seg = [] ∨ seg = ['.'] then out
  else if seg = ['.', '.'] then
    match out.getLast? with
    | some last => if last = ['.', '.'] then out ++ [seg] else out.dropLast
    | none => if rooted then out else [seg]
  else out ++ [seg]

def cleanSegs (rooted : Bool) (segs : List (List Char)) : List (List Char) :=
  segs.foldl (cleanStep rooted) []

/-- Model of Go `strings.Join(parts, "/")` on character lists. -/
def joinChars : List (List Char) → List Char
  | [] => []
  | [a] => a
  | a :: rest => a ++ '/' :: joinChars rest

def joinSegs (l : List (List Char)) : String :=
  String.mk (joinChars l)

/-- Model of Go `filepath.Clean` for Unix paths. -/
def cleanPath (s : String) : String :=
  if s = "" then "."
  else
    let rooted : Bool := s.toList.head? == some '/'
    let out := cleanSegs rooted (splitSegs s.toList)
    if out = [] then (if rooted then "/" else ".")
    else if rooted then "/" ++ joinSegs out else joinSegs out

/-- Model of Go `filepath.Join` for two elements. -/
def joinPath (a b : String) : String :=
  if a = "" ∧ b = "" then ""
  else if a = "" then cleanPath b
  else if b = "" then cleanPath a
  else cleanPath (a ++ "/" ++ b)

def commonPreLen : List (List Char) → List (List Char) → Nat
  | a :: as, b :: bs => if a = b then commonPreLen as bs + 1 else 0
  | _, _ => 0

def buildRel (up : Nat) (rest : List (List Char)) : String :=
  let segs := List.replicate up ['.', '.'] ++ rest
  if segs = [] then "." else String.mk (joinChars segs)

/-- Model of Go `filepath.Rel` for Unix paths (`none` = the error return). -/
def relPath (basepath targpath : String) : Option String :=
  let base := cleanPath basepath
  let targ := cleanPath targpath
  if targ = base then some "."
  else
    let base' := if base = "." then "" else base
    let baseSlashed : Bool := base'.toList.head? == some '/'
    let targSlashed : Bool := targ.toList.head? == some '/'
    if baseSlashed ≠ targSlashed then none
    else
      let bs := (splitSegs base'.toList).filter (· ≠ [])
      let ts := (splitSegs targ.toList).filter (· ≠ [])
      let n := commonPreLen bs ts
      match (bs.drop n).head? with
      | some seg =>
          if seg = ['.', '.'] then none
          else some (buildRel (bs.length - n) (ts.drop n))
      | none => some (buildRel 0 (ts.drop n))

def resticArchiveBaseDir : String := "/var/lib/pterodactyl/restic/archive"

/-- One character of the allow-list class `[A-Za-z0-9._+@-]`. -/
def idChar (c : Char) : Bool :=
  c.isAlphanum || c == '.' || c == '_' || c == '+' || c == '@' || c == '-'

/-- The allow-list pattern `^[A-Za-z0-9][A-Za-z0-9._+@-]{0,254}$`. -/
def archiveIdOk (id : String) : Bool :=
  match id.toList with
  | [] => false
  | c :: rest => c.isAlphanum && decide (rest.length ≤ 254) && rest.all idChar

/-- `stringsHasDotDot` (archive.go:48-58): some path segment is `".."`. -/
def hasDotDotSeg (rel : String) : Bool :=
  (splitSegs rel.toList).any (· = ['.', '.'])

/-- `safeArchivePath` (archive.go:29-46). -/
def safeArchivePath (id : String) : Option String :=
  if ¬archiveIdOk id then none
  else
    let base := cleanPath resticArchiveBaseDir
    let target := cleanPath (joinPath base id)
    match relPath base target with
    | none => none
    | some rel =>
        if rel = "." ∨ rel = "" ∨ rel = ".." ∨ hasDotDotSeg rel then none
        else some target

inductive ArchResp where
  | invalidId
  | notFound
  | okDownload (path : String)
deriving DecidableEq

/-- `DownloadArchivedRepo` (archive.go:220-243); `statIsDir` is the
file-system oracle (`none` = stat error) and the second component lists the
paths touched by any file-system call the handler makes. -/
def downloadArchivedRepo (id : String) (statIsDir : String → Option Bool) :
    ArchResp × List String :=
  match safeArchivePath id with
  | none => (.invalidId, [])
  | some target =>
      match statIsDir target with
      | none => (.notFound, [target])
      | some false => (.notFound, [target])
      | some true => (.okDownload target, [target])

/-! ## Supporting lemmas -/

theorem toList_append (s t : String) : (s ++ t).toList = s.toList ++ t.toList := rfl

theorem toList_mk (l : List Char) : (String.mk l).toList = l := rfl

theorem dropWhile_append_singleton (p : Char → Bool) (l : List Char) (c : Char)
    (hc : p c = true) :
    (l ++ [c]).dropWhile p = if (l.dropWhile p).isEmpty then [] else l.dropWhile p ++ [c] := by
  induction l with
  | nil => simp [List.dropWhile, hc]
  | cons a as ih =>
      by_cases ha : p a = true
      · simpa [List.dropWhile, ha] using ih
      · simp [List.dropWhile, ha]

theorem goTrimSpace_append_newline (s : String) :
    goTrimSpace (s ++ "\n") = goTrimSpace s := by
  have hnl : isSpaceChar '\n' = true := rfl
  have h0 : (s ++ "\n").toList = s.toList ++ ['\n'] := rfl
  unfold goTrimSpace
  rw [h0, dropWhile_append_singleton _ _ _ hnl]
  cases h : s.toList.dropWhile isSpaceChar with
  | nil => simp [h]
  | cons a as => simp [h, List.dropWhile, hnl]

theorem listHasPfx_append_left (p q l : List Char) :
    listHasPfx (p ++ q) l = true → listHasPfx p l = true := by
  induction p generalizing l with
  | nil => intro _; rfl
  | cons a ps ih =>
      intro h
      cases l with
      | nil => simp [listHasPfx] at h
      | cons c cs =>
          simp only [List.cons_append, listHasPfx, Bool.and_eq_true] at h ⊢
          exact ⟨h.1, ih cs h.2⟩

theorem listHasPfx_self_append (p l : List Char) : listHasPfx p (p ++ l) = true := by
  induction p with
  | nil => rfl
  | cons a ps ih => simp [listHasPfx, ih]

theorem goHasPfx_of_extended (p q v : String) :
    goHasPfx (p ++ q) v = true → goHasPfx p v = true := by
  intro h
  exact listHasPfx_append_left p.toList q.toList v.toList (by simpa [goHasPfx, toList_append] using h)

theorem countSecretCopies_append (a b : List String) :
    countSecretCopies (a ++ b) = countSecretCopies a + countSecretCopies b :=
  List.countP_append _ _ _

theorem countSecretCopies_buildResticEnv (base : List String) (key : String) :
    countSecretCopies (buildResticEnv base key) = 1 := by
  unfold buildResticEnv
  rw [countSecretCopies_append]
  have h0 : countSecretCopies (base.filter (fun v => !(goHasPfx secretVar v))) = 0 := by
    refine List.countP_eq_zero.2 ?_
    intro v hv
    have hmem := List.of_mem_filter hv
    simp only [Bool.not_eq_true'] at hmem
    intro hcontra
    rw [goHasPfx_of_extended secretVar "=" v hcontra] at hmem
    exact Bool.true_eq_false.mp hmem
  have h1 : countSecretCopies [secretVar ++ "=" ++ key] = 1 := by
    have hp : goHasPfx (secretVar ++ "=") (secretVar ++ "=" ++ key) = true := by
      show listHasPfx (secretVar ++ "=").toList ((secretVar ++ "=").toList ++ key.toList) = true
      exact listHasPfx_self_append _ _
    simp [countSecretCopies, List.countP, List.countP.go, hp]
  rw [h0, h1]

theorem resolveSnapshotList_no_match (l : List SnapId) (b : String)
    (h : ∀ s ∈ l, snapMatches s b = false) : resolveSnapshotList l b = b := by
  induction l with
  | nil => rfl
  | cons s rest ih =>
      have hs := h s (by simp)
      simp only [resolveSnapshotList, hs]
      simp only [Bool.false_eq_true, if_false]
      exact ih (fun x hx => h x (by simp [hx]))

theorem resolveSnapshotList_match (l : List SnapId) (b : String)
    (h : ∃ s ∈ l, snapMatches s b = true) :
    ∃ s ∈ l, snapMatches s b = true ∧ resolveSnapshotList l b = s.id := by
  induction l with
  | nil => simp at h
  | cons s rest ih =>
      by_cases hs : snapMatches s b = true
      · exact ⟨s, by simp, hs, by simp [resolveSnapshotList, hs]⟩
      · obtain ⟨x, hx, hmx⟩ := h
        rcases List.mem_cons.1 hx with hxe | hxr
        · exact absurd (hxe ▸ hmx) hs
        · obtain ⟨y, hy, hmy, hres⟩ := ih ⟨x, hxr, hmx⟩
          refine ⟨y, by simp [hy], hmy, ?_⟩
          simp [resolveSnapshotList, hs, hres]

/-! ## Claim C2 -/

/-- C2: key resolution is first-write-wins.  When the location's key file
holds a stored (non-blank) key, that key is returned whatever key the request
supplies, and the file is untouched.  When no stored key exists and a key is
supplied, it is persisted and returned, and any later request for the
location then gets that key back.  When neither exists, resolution fails with
the missing-key error. -/
theorem c2_resolve_key_first_write_wins (repo : String) (keyFile : Option String)
    (provided : String) (hrepo : repo ≠ "") :
    (∀ k, storedKey keyFile = some k →
        resolveResticKey repo keyFile provided = .ok (k, keyFile))
    ∧ (storedKey keyFile = none → provided ≠ "" →
        resolveResticKey repo keyFile provided = .ok (provided, some (provided ++ "\n"))
        ∧ (goTrimSpace provided = provided →
            ∀ later, resolveResticKey repo (some (provided ++ "\n")) later
              = .ok (provided, some (provided ++ "\n"))))
    ∧ (storedKey keyFile = none → provided = "" →
        resolveResticKey repo keyFile provided = .error "missing encryption key") := by
  have hwrite : ∀ later, goTrimSpace provided = provided → provided ≠ "" →
      resolveResticKey repo (some (provided ++ "\n")) later
        = .ok (provided, some (provided ++ "\n")) := by
    intro later htrim hp
    have h1 : goTrimSpace (provided ++ "\n") = provided := by
      rw [goTrimSpace_append_newline, htrim]
    simp [resolveResticKey, hrepo, h1, hp]
  refine ⟨?_, ?_, ?_⟩
  · intro k hk
    cases keyFile with
    | none => simp [storedKey] at hk
    | some data =>
        by_cases hd : goTrimSpace data = ""
        · simp [storedKey, hd] at hk
        · have hk' : goTrimSpace data = k := by
            simpa [storedKey, hd] using hk
          subst hk'
          simp [resolveResticKey, hrepo, hd]
  · intro hnone hp
    refine ⟨?_, fun htrim later => hwrite later htrim hp⟩
    match hkf : keyFile with
    | none => simp [resolveResticKey, hrepo, hp]
    | some data =>
        have hd : ¬ goTrimSpace data ≠ "" := by
          by_contra hcon
          simp [storedKey, hcon] at hnone
        simp [resolveResticKey, hrepo, hd, hp]
  · intro hnone hp
    match hkf : keyFile with
    | none => simp [resolveResticKey, hrepo, hp]
    | some data =>
        have hd : ¬ goTrimSpace data ≠ "" := by
          by_contra hcon
          simp [storedKey, hcon] at hnone
        simp [resolveResticKey, hrepo, hd, hp]

/-- C2 witness: a first request stores "key"; a later request supplying
"other" still gets "key" back. -/
theorem c2_witness :
    ("repo" : String) ≠ ""
    ∧ resolveResticKey "repo" none "key" = .ok ("key", some ("key" ++ "\n"))
    ∧ resolveResticKey "repo" (some ("key" ++ "\n")) "other"
        = .ok ("key", some ("key" ++ "\n"))
    ∧ resolveResticKey "repo" none "" = .error "missing encryption key" := by
  have h := c2_resolve_key_first_write_wins "repo" none "key" (by decide)
  have h0 := c2_resolve_key_first_write_wins "repo" none "" (by decide)
  exact ⟨by decide, (h.2.1 rfl (by decide)).1,
    (h.2.1 rfl (by decide)).2 (by decide) "other", h0.2.2 rfl rfl⟩

/-! ## Claim C9 -/

/-- C9 counterexample: the restore/prepare environment construction keeps an
inherited copy of the secret-key variable next to the appended one, so the
environment passed to the tool holds two copies, not exactly one. -/
theorem c9_counterexample :
    countSecretCopies (appendKeyEnv ["RESTIC_PASSWORD=stale"] "newkey") = 2
    ∧ (2 : Nat) ≠ 1 := by
  constructor
  · decide
  · decide

/-- C9 (amended): the environments built through `buildResticEnv` (all restic
invocations in backups.go) hold exactly one copy of the secret-key variable;
the restore handler and the prepare internals instead append the key to the
inherited environment without stripping, so every inherited copy survives and
the count grows by one. -/
theorem c9_amended_env_key_copies :
    (∀ base key, countSecretCopies (buildResticEnv base key) = 1)
    ∧ (∀ base key, appendKeyEnv base key = base ++ [secretVar ++ "=" ++ key]
        ∧ countSecretCopies (appendKeyEnv base key) = countSecretCopies base + 1) := by
  refine ⟨countSecretCopies_buildResticEnv, fun base key => ⟨rfl, ?_⟩⟩
  unfold appendKeyEnv
  rw [countSecretCopies_append]
  have h1 : countSecretCopies [secretVar ++ "=" ++ key] = 1 := by
    have hp : goHasPfx (secretVar ++ "=") (secretVar ++ "=" ++ key) = true := by
      show listHasPfx (secretVar ++ "=").toList ((secretVar ++ "=").toList ++ key.toList) = true
      exact listHasPfx_self_append _ _
    simp [countSecretCopies, List.countP, List.countP.go, hp]
  rw [h1]

/-! ## Claim C3 -/

/-- C3: while a `running` record younger than the 6-hour window exists for
the same (entity, kind), a new backup or restore request is answered
Conflict: the guard stops before any tool invocation or background task and
carries the store unchanged. -/
theorem c3_running_conflict (r : StatusRec) (now t : Int)
    (hrun : r.status = "running") (hstart : r.startedAt = .valid t)
    (hfresh : now - t ≤ staleWindow) :
    createBackupGuard (some r) now = .conflict (some r)
    ∧ restoreGuard (some r) now = .conflict (some r) := by
  constructor <;>
    simp [createBackupGuard, restoreGuard, runningGuard, hrun, hstart, hfresh]

/-- C3 witness: a backup started at t = 0 observed at t = 100 is refused. -/
theorem c3_witness :
    ({ status := "running", startedAt := .valid 0 } : StatusRec).status = "running"
    ∧ (100 : Int) - 0 ≤ staleWindow
    ∧ createBackupGuard (some { status := "running", startedAt := .valid 0 }) 100
        = .conflict (some { status := "running", startedAt := .valid 0 })
    ∧ restoreGuard (some { status := "running", startedAt := .valid 0 }) 100
        = .conflict (some { status := "running", startedAt := .valid 0 }) := by
  have h := c3_running_conflict { status := "running", startedAt := .valid 0 } 100 0
    rfl rfl (by decide)
  exact ⟨rfl, by decide, h.1, h.2⟩

/-! ## Claim C4 -/

/-- C4 counterexample: the prepare status reader performs no staleness
handling at all — it does not even consult the clock — so a `running`
prepare record of any age is returned still `running` and the store is left
unchanged, contradicting the claim for the prepare kind. -/
theorem c4_counterexample :
    prepareStatusRead (some { status := "running", startedAt := .valid 0 })
      = ({ status := "running", startedAt := .valid 0 },
          some { status := "running", startedAt := .valid 0 })
    ∧ ({ status := "running", startedAt := .valid 0 } : StatusRec).status ≠ "failed" := by
  constructor
  · decide
  · decide

/-- C4 (amended): for the backup and restore kinds a `running` record older
than the 6-hour window is rewritten to `failed` (finish time now, stale
message when none was recorded) by the next status read, and the next
request's guard then proceeds instead of answering Conflict.  The prepare
status reader has no such staleness handling (see the counterexample),
though prepare requests are accepted regardless since that handler performs
no running-check. -/
theorem c4_amended_stale_reaped (r : StatusRec) (now t : Int)
    (hrun : r.status = "running") (hstart : r.startedAt = .valid t)
    (hstale : staleWindow < now - t) :
    backupStatusRead (some r) now
        = (markStale r now staleBackupMsg, some (markStale r now staleBackupMsg))
    ∧ restoreStatusRead (some r) now
        = (markStale r now staleRestoreMsg, some (markStale r now staleRestoreMsg))
    ∧ (markStale r now staleBackupMsg).status = "failed"
    ∧ (markStale r now staleBackupMsg).finishedAt = .valid now
    ∧ (r.message = "" → (markStale r now staleBackupMsg).message = staleBackupMsg)
    ∧ createBackupGuard (some r) now = .proceed (some (markStale r now staleBackupMsg))
    ∧ restoreGuard (some r) now = .proceed (some (markStale r now staleRestoreMsg)) := by
  have hne : ¬ r.status = "" := by rw [hrun]; decide
  have hgt : ¬ now - t ≤ staleWindow := not_le.mpr hstale
  refine ⟨?_, ?_, rfl, rfl, ?_, ?_, ?_⟩
  · simp [backupStatusRead, statusReadWithStale, hne, hrun, hstart, hstale, hgt]
  · simp [restoreStatusRead, statusReadWithStale, hne, hrun, hstart, hstale, hgt]
  · intro hm; simp [markStale, hm]
  · simp [createBackupGuard, runningGuard, hrun, hstart, hgt]
  · simp [restoreGuard, runningGuard, hrun, hstart, hgt]

/-- C4 witness: a backup record started at t = 0 read at t = 30000 (beyond
the 6-hour window) comes back failed and a new claim is accepted. -/
theorem c4_witness :
    staleWindow < (30000 : Int) - 0
    ∧ (backupStatusRead (some { status := "running", startedAt := .valid 0 }) 30000).1.status
        = "failed"
    ∧ createBackupGuard (some { status := "running", startedAt := .valid 0 }) 30000
        = .proceed
            (some (markStale { status := "running", startedAt := .valid 0 } 30000 staleBackupMsg))
    ∧ (markStale { status := "running", startedAt := .valid 0 } 30000 staleBackupMsg).status
        = "failed" := by
  have h := c4_amended_stale_reaped { status := "running", startedAt := .valid 0 } 30000 0
    rfl rfl (by decide)
  refine ⟨by decide, ?_, ?_, by decide⟩
  · rw [h.1]; decide
  · exact h.2.2.2.2.2.1

/-! ## Claim C5 -/

/-- C5 counterexample: with a non-empty cached archive already present for
the pair, the prepare internals still invoke the restore step (the cache
check only happens after the restore completes); only the compression step is
skipped. -/
theorem c5_counterexample :
    prepareInternal
        { backupId := "abc", encryptionKey := "k", ownerUsername := "o",
          restoreOk := true, cacheNonEmpty := true, tarOk := true }
      = ([.restore], .ok ())
    ∧ PCmd.restore ∈ [PCmd.restore] := by
  constructor
  · rfl
  · decide

/-- C5 (amended): when a non-empty cache file for the (server, snapshot) pair
exists, a repeated prepare returns the existing entry and does not run the
compression step again, but the restore step is still invoked a second time
before the cache is consulted. -/
theorem c5_amended_cache_hit (e : PrepEnv)
    (hid : e.backupId ≠ "") (hkey : e.encryptionKey ≠ "") (howner : e.ownerUsername ≠ "")
    (hcache : e.cacheNonEmpty = true) :
    (e.restoreOk = true → prepareInternal e = ([.restore], .ok ()))
    ∧ PCmd.tar ∉ (prepareInternal e).1
    ∧ PCmd.restore ∈ (prepareInternal e).1 := by
  refine ⟨?_, ?_, ?_⟩
  · intro hok; simp [prepareInternal, hid, hkey, howner, hcache, hok]
  · cases hok : e.restoreOk <;>
      simp [prepareInternal, hid, hkey, howner, hcache, hok]
  · cases hok : e.restoreOk <;>
      simp [prepareInternal, hid, hkey, howner, hcache, hok]

/-- C5 witness for the amended claim. -/
theorem c5_witness :
    prepareInternal
        { backupId := "deadbeef", encryptionKey := "k2", ownerUsername := "o2",
          restoreOk := true, cacheNonEmpty := true, tarOk := false }
      = ([.restore], .ok ()) := by
  exact (c5_amended_cache_hit
    { backupId := "deadbeef", encryptionKey := "k2", ownerUsername := "o2",
      restoreOk := true, cacheNonEmpty := true, tarOk := false }
    (by decide) (by decide) (by decide) rfl).1 rfl

/-! ## Claim C10 -/

/-- C10: snapshot-id resolution is total: the empty identifier resolves to
the empty string; a failed or unparseable listing returns the identifier
unchanged; an identifier matching no listed snapshot (as a full id, an
8-character prefix of a full id, or a short id of a snapshot with a full id)
returns unchanged; and when some listed snapshot matches, the full id of the
first matching snapshot is returned. -/
theorem c10_resolve_snapshot_total (listing : Option (List SnapId)) (l : List SnapId)
    (b : String) (s : SnapId) :
    resolveSnapshotID listing "" = ""
    ∧ (b ≠ "" → resolveSnapshotID none b = b)
    ∧ (b ≠ "" → (∀ x ∈ l, snapMatches x b = false) → resolveSnapshotID (some l) b = b)
    ∧ (b ≠ "" → (∃ x ∈ l, snapMatches x b = true) →
        ∃ x ∈ l, snapMatches x b = true ∧ resolveSnapshotID (some l) b = x.id)
    ∧ (b ≠ "" → s ∈ l → s.id ≠ "" →
        (s.id = b ∨ (8 ≤ s.id.length ∧ take8 s.id = b) ∨ (s.shortId = b ∧ s.shortId ≠ "")) →
        ∃ x ∈ l, x.id ≠ "" ∧ resolveSnapshotID (some l) b = x.id) := by
  refine ⟨by simp [resolveSnapshotID], fun hb => by simp [resolveSnapshotID, hb],
    fun hb hnone => ?_, fun hb hsome => ?_, fun hb hmem hsid hcase => ?_⟩
  · simp only [resolveSnapshotID, hb, if_neg hb]
    exact resolveSnapshotList_no_match l b hnone
  · obtain ⟨x, hx, hmx, hres⟩ := resolveSnapshotList_match l b hsome
    exact ⟨x, hx, hmx, by simp only [resolveSnapshotID, if_neg hb]; exact hres⟩
  · have hm : snapMatches s b = true := by
      unfold snapMatches
      rcases hcase with h1 | ⟨h2a, h2b⟩ | ⟨h3a, h3b⟩
      · simp [hsid, h1, hb]
      · simp [hsid, h2a, h2b, hb]
      · simp [hsid, h3a, h3b, hb]
    obtain ⟨x, hx, hmx, hres⟩ := resolveSnapshotList_match l b ⟨s, hmem, hm⟩
    have hxid : x.id ≠ "" := by
      unfold snapMatches at hmx
      rcases Bool.or_eq_true_iff.1 hmx with h | h
      · exact of_decide_eq_true (Bool.and_eq_true_iff.1 h).1
      · exact of_decide_eq_true (Bool.and_eq_true_iff.1 h).2
    exact ⟨x, hx, hxid, by simp only [resolveSnapshotID, if_neg hb]; exact hres⟩

/-- C10 witness: a short-id query resolves to the listed full id; an unknown
query is returned unchanged. -/
theorem c10_witness :
    resolveSnapshotID (some [⟨"0123456789abcdef", "01234567"⟩]) "01234567"
      = "0123456789abcdef"
    ∧ resolveSnapshotID (some [⟨"0123456789abcdef", "01234567"⟩]) "zzz" = "zzz"
    ∧ resolveSnapshotID none "xyz" = "xyz"
    ∧ resolveSnapshotID (some [⟨"0123456789abcdef", "01234567"⟩]) "" = "" := by
  have h := c10_resolve_snapshot_total (some [⟨"0123456789abcdef", "01234567"⟩])
    [⟨"0123456789abcdef", "01234567"⟩] "zzz" ⟨"0123456789abcdef", "01234567"⟩
  have h2 := c10_resolve_snapshot_total none
    [(⟨"0123456789abcdef", "01234567"⟩ : SnapId)] "01234567"
    ⟨"0123456789abcdef", "01234567"⟩
  have h3 := c10_resolve_snapshot_total none ([] : List SnapId) "xyz" ⟨"", ""⟩
  refine ⟨?_, ?_, ?_, ?_⟩
  · obtain ⟨x, hx, hxid, hres⟩ := h2.2.2.2.2 (by decide) (by simp) (by decide)
      (Or.inr (Or.inr ⟨rfl, by decide⟩))
    have hxe : x = ⟨"0123456789abcdef", "01234567"⟩ := by simpa using hx
    rw [hres, hxe]
  · exact h.2.2.1 (by decide) (by decide)
  · exact h3.2.1 (by decide)
  · exact h.1

/-! ## Claims C6 and C7: recovery heuristics -/

theorem tryUnlock_trace_shape (now : Int) (ok : Bool) (out : String) :
    (tryUnlockStaleLock now ok out).1 = []
    ∨ (tryUnlockStaleLock now ok out).1 = [RCmd.unlock] := by
  unfold tryUnlockStaleLock
  cases parseLockCreatedAt out with
  | none => left; rfl
  | some t =>
      by_cases h : now - t < 1800
      · left; simp [h]
      · right; simp [h]

theorem isRecentRepo_iff (c : Option Int) (w : Int) :
    isRecentRepo c w = true ↔ ∃ a, c = some a ∧ a ≤ w := by
  cases c <;> simp [isRecentRepo]

theorem isSafeToReinit_iff (repo : String) (s : Option Int) :
    isSafeToReinitRepo repo s = true ↔ repo ≠ "" ∧ ∃ sz, s = some sz ∧ sz ≤ 1048576 := by
  by_cases h : repo = "" <;> cases s <;> simp [isSafeToReinitRepo, h]

/-- C6 counterexample: with a key-mismatch failure on a repository whose
`config` is exactly 2 minutes old (the boundary), the code still destroys
and reinitializes the repository, although the claim only permits this for
an age strictly under 2 minutes. -/
theorem c6_counterexample :
    runBackupWithRecovery "repo" 0
        { firstOut := "Fatal: wrong password or no key found", firstOk := false,
          unlockOk := false, configAge := some 120, repoSize := some 0,
          reinitOk := true, retryOut := "ok", retryOk := true }
      = ([.backup, .reinit, .retryBackup], "ok", true)
    ∧ ¬ ((120 : Int) < 120) := by
  constructor
  · rfl
  · decide

/-- C6 (amended): a key-mismatch failure leads to the repository being
destroyed and reinitialized (the `reinit` step, whose first action is
`os.RemoveAll`) only when the backup failed with a key-mismatch diagnostic,
the repository's `config` age is at most 2 minutes (the window is inclusive)
and its size is at most 1 MiB; and when all of those hold (and the failure is
not also classified as a locked-repository error) the repository is
reinitialized and the backup retried exactly once. -/
theorem c6_amended_reinit_guard (repo : String) (now : Int) (e : RecoveryEnv) :
    (RCmd.reinit ∈ (runBackupWithRecovery repo now e).1 →
        e.firstOk = false
        ∧ isKeyMismatchError e.firstOut = true
        ∧ (∃ a, e.configAge = some a ∧ a ≤ 120)
        ∧ (∃ sz, e.repoSize = some sz ∧ sz ≤ 1048576))
    ∧ (e.firstOk = false → isKeyMismatchError e.firstOut = true →
        isRepoLockedError e.firstOut = false →
        isRecentRepo e.configAge 120 = true → isSafeToReinitRepo repo e.repoSize = true →
        e.reinitOk = true →
        runBackupWithRecovery repo now e
          = ([.backup, .reinit, .retryBackup], e.retryOut, e.retryOk)) := by
  constructor
  · intro hmem
    by_cases hfo : e.firstOk = true
    · simp [runBackupWithRecovery, hfo] at hmem
    · have hfo' : e.firstOk = false := by
        cases h2 : e.firstOk
        · rfl
        · exact absurd h2 hfo
      by_cases hk : isKeyMismatchError e.firstOut = true
      · by_cases hrec : isRecentRepo e.configAge 120 = true
        · by_cases hsafe : isSafeToReinitRepo repo e.repoSize = true
          · obtain ⟨a, ha, hale⟩ := (isRecentRepo_iff _ _).1 hrec
            obtain ⟨-, sz, hsz, hszle⟩ := (isSafeToReinit_iff _ _).1 hsafe
            exact ⟨hfo', hk, ⟨a, ha, hale⟩, ⟨sz, hsz, hszle⟩⟩
          · rcases tryUnlock_trace_shape now e.unlockOk e.firstOut with hsh | hsh <;>
              by_cases hlk : isRepoLockedError e.firstOut = true <;>
              by_cases hu : (tryUnlockStaleLock now e.unlockOk e.firstOut).2 = true <;>
              simp [runBackupWithRecovery, hfo', hk, hrec, hsafe, hsh, hu, hlk] at hmem
        · rcases tryUnlock_trace_shape now e.unlockOk e.firstOut with hsh | hsh <;>
            by_cases hlk : isRepoLockedError e.firstOut = true <;>
            by_cases hu : (tryUnlockStaleLock now e.unlockOk e.firstOut).2 = true <;>
            simp [runBackupWithRecovery, hfo', hk, hrec, hsh, hu, hlk] at hmem
      · rcases tryUnlock_trace_shape now e.unlockOk e.firstOut with hsh | hsh <;>
          by_cases hlk : isRepoLockedError e.firstOut = true <;>
          by_cases hu : (tryUnlockStaleLock now e.unlockOk e.firstOut).2 = true <;>
          simp [runBackupWithRecovery, hfo', hk, hsh, hu, hlk] at hmem
  · intro hfo hk hlk hrec hsafe hri
    simp [runBackupWithRecovery, hfo, hlk, hk, hrec, hsafe, hri]

/-- C6 witness: a key mismatch on a 60-second-old, 100-byte repository is
remediated: destroy, reinit, retry once. -/
theorem c6_witness :
    runBackupWithRecovery "repo" 0
        { firstOut := "Fatal: ciphertext verification failed", firstOk := false,
          unlockOk := false, configAge := some 60, repoSize := some 100,
          reinitOk := true, retryOut := "done", retryOk := true }
      = ([.backup, .reinit, .retryBackup], "done", true) := by
  exact (c6_amended_reinit_guard "repo" 0
    { firstOut := "Fatal: ciphertext verification failed", firstOk := false,
      unlockOk := false, configAge := some 60, repoSize := some 100,
      reinitOk := true, retryOut := "done", retryOk := true }).2
    rfl (by decide) (by decide) (by decide) (by decide) rfl

/-- C7: when a backup fails with a locked-repository diagnostic whose lock
creation timestamp parses, the code unlocks and retries exactly once iff the
lock is older than 30 minutes (and the unlock succeeds); a younger lock, or a
diagnostic with no parseable timestamp, is not retried and the synchronous
caller surfaces the 409 "repo busy" Conflict. -/
theorem c7_stale_lock_retry (repo : String) (now : Int) (e : RecoveryEnv)
    (hfail : e.firstOk = false) (hlock : isRepoLockedError e.firstOut = true) :
    (∀ t, parseLockCreatedAt e.firstOut = some t → 1800 < now - t → e.unlockOk = true →
        runBackupWithRecovery repo now e
          = ([.backup, .unlock, .retryBackup], e.retryOut, e.retryOk))
    ∧ (∀ t, parseLockCreatedAt e.firstOut = some t → now - t < 1800 →
        isKeyMismatchError e.firstOut = false →
        runBackupWithRecovery repo now e = ([.backup], e.firstOut, false)
        ∧ classifyBackupFailure e.firstOut = .conflictBusy)
    ∧ (parseLockCreatedAt e.firstOut = none → isKeyMismatchError e.firstOut = false →
        runBackupWithRecovery repo now e = ([.backup], e.firstOut, false)
        ∧ classifyBackupFailure e.firstOut = .conflictBusy) := by
  refine ⟨fun t hp hold hun => ?_, fun t hp hyoung hkm => ?_, fun hp hkm => ?_⟩
  · have hnotlt : ¬ now - t < 1800 := by omega
    simp [runBackupWithRecovery, hfail, hlock, tryUnlockStaleLock, hp, hnotlt, hun]
  · constructor
    · simp [runBackupWithRecovery, hfail, hlock, tryUnlockStaleLock, hp, hyoung, hkm]
    · simp [classifyBackupFailure, hlock]
  · constructor
    · simp [runBackupWithRecovery, hfail, hlock, tryUnlockStaleLock, hp, hkm]
    · simp [classifyBackupFailure, hlock]

def c7LockOut : String :=
  "unable to create lock in backend: repository is already locked by PID 17, lock was created at 2024-01-01 10:00:00 (45m3s ago)"

set_option maxRecDepth 100000 in
/-- C7 witness: a lock created 45 minutes ago is unlocked and the backup
retried once; a lock created 5 minutes ago is not retried and the request is
answered "repo busy". -/
theorem c7_witness :
    runBackupWithRecovery "repo" (1704103200 + 2700)
        { firstOut := c7LockOut, firstOk := false, unlockOk := true,
          configAge := none, repoSize := none, reinitOk := false,
          retryOut := "done", retryOk := true }
      = ([.backup, .unlock, .retryBackup], "done", true)
    ∧ runBackupWithRecovery "repo" (1704103200 + 300)
        { firstOut := c7LockOut, firstOk := false, unlockOk := true,
          configAge := none, repoSize := none, reinitOk := false,
          retryOut := "done", retryOk := true }
      = ([.backup], c7LockOut, false)
    ∧ classifyBackupFailure c7LockOut = .conflictBusy := by
  have h1 := c7_stale_lock_retry "repo" (1704103200 + 2700)
    { firstOut := c7LockOut, firstOk := false, unlockOk := true,
      configAge := none, repoSize := none, reinitOk := false,
      retryOut := "done", retryOk := true } rfl (by decide)
  have h2 := c7_stale_lock_retry "repo" (1704103200 + 300)
    { firstOut := c7LockOut, firstOk := false, unlockOk := true,
      configAge := none, repoSize := none, reinitOk := false,
      retryOut := "done", retryOk := true } rfl (by decide)
  have hy := h2.2.1 1704103200 (by decide) (by decide) (by decide)
  exact ⟨h1.1 1704103200 (by decide) (by decide) rfl, hy.1, hy.2⟩

/-! ## Claim C1: supporting lemmas -/

theorem mk_eq_empty_iff (l : List Char) : String.mk l = "" ↔ l = [] := by
  constructor
  · intro h; exact congrArg String.toList h
  · intro h; rw [h]

theorem str_ne_empty_of_len (s : String) (h : 8 ≤ s.length) : s ≠ "" := by
  intro he
  rw [he] at h
  exact absurd h (by decide)

theorem take8_take8 (s : String) : take8 (take8 s) = take8 s := by
  unfold take8
  rw [toList_mk, List.take_take]
  simp

theorem take8_ne_empty (s : String) (h : 8 ≤ s.length) : take8 s ≠ "" := by
  unfold take8
  rw [Ne, mk_eq_empty_iff, ← List.length_eq_zero, List.length_take]
  have hl : 8 ≤ s.toList.length := h
  omega

theorem eq_of_take8_eq {snaps : List Snap}
    (hdist : snaps.Pairwise (fun a b => take8 a.id ≠ take8 b.id))
    {a b : Snap} (ha : a ∈ snaps) (hb : b ∈ snaps) (h : take8 a.id = take8 b.id) : a = b := by
  by_contra hne
  have hsym : Symmetric (fun x y : Snap => take8 x.id ≠ take8 y.id) := by
    intro x y hxy he
    exact hxy he.symm
  exact hdist.forall hsym ha hb hne h

theorem inlineBody_eq (a : List String) (s : Snap) : inlineBody a s = a ++ protKeys s := by
  unfold inlineBody protKeys isProtected
  cases hts : s.tags with
  | none => simp [hasLockedTag]
  | some ts =>
      by_cases hl : hasLockedTag ts = true
      · simp [hl]
      · simp [hl]

theorem lockedIdsInline_acc (l : List Snap) : ∀ acc : List String,
    List.foldl inlineBody acc l = acc ++ lockedIdsInline l := by
  induction l with
  | nil => intro acc; simp [lockedIdsInline]
  | cons s rest ih =>
      intro acc
      have h2 : lockedIdsInline (s :: rest) = inlineBody [] s ++ lockedIdsInline rest := by
        unfold lockedIdsInline
        rw [List.foldl_cons, ih]
        rfl
      rw [List.foldl_cons, ih, h2, inlineBody_eq, inlineBody_eq]
      simp

theorem mem_lockedIdsInline (snaps : List Snap) (x : String) :
    x ∈ lockedIdsInline snaps ↔ ∃ t ∈ snaps, isProtected t = true ∧ x ∈ idKeys t := by
  induction snaps with
  | nil => simp [lockedIdsInline]
  | cons s rest ih =>
      have h2 : lockedIdsInline (s :: rest) = protKeys s ++ lockedIdsInline rest := by
        unfold lockedIdsInline
        rw [List.foldl_cons, lockedIdsInline_acc, inlineBody_eq]
        simp
        rfl
      rw [h2, List.mem_append, ih]
      constructor
      · rintro (hx | ⟨t, ht, hp, hk⟩)
        · unfold protKeys at hx
          by_cases hps : isProtected s = true
          · exact ⟨s, by simp, hps, by simpa [hps] using hx⟩
          · simp [hps] at hx
        · exact ⟨t, by simp [ht], hp, hk⟩
      · rintro ⟨t, ht, hp, hk⟩
        rcases List.mem_cons.1 ht with rfl | htr
        · left; simp [protKeys, hp, hk]
        · right; exact ⟨t, htr, hp, hk⟩

theorem mem_idKeys_norm (s : Snap) (hlen : 8 ≤ s.id.length) (hshort : s.shortId = take8 s.id)
    (x : String) : x ∈ idKeys s ↔ (x = s.id ∨ x = take8 s.id) := by
  have hne : s.id ≠ "" := str_ne_empty_of_len s.id hlen
  have hne8 : take8 s.id ≠ "" := take8_ne_empty s.id hlen
  simp only [idKeys, hne, hlen, hshort, hne8, ne_eq, not_false_eq_true, if_true, if_pos]
  simp [hne, hne8, hlen]

theorem contains_iff_mem (l : List String) (x : String) : l.contains x = true ↔ x ∈ l := by
  simp [List.contains]

/-- Under well-formed listings (full ids of length at least 8, short ids equal
to the 8-character prefix, pairwise distinct prefixes), the code's locked-set
test classifies a snapshot as locked exactly when it carries the sentinel
tag. -/
theorem locked_classification (snaps : List Snap)
    (hlen : ∀ s ∈ snaps, 8 ≤ s.id.length)
    (hshort : ∀ s ∈ snaps, s.shortId = take8 s.id)
    (hdist : snaps.Pairwise (fun a b => take8 a.id ≠ take8 b.id))
    (s : Snap) (hs : s ∈ snaps) :
    ((s.id ≠ "" ∧ (lockedIdsInline snaps).contains s.id = true)
      ∨ (effShort s ≠ "" ∧ (lockedIdsInline snaps).contains (effShort s) = true))
      ↔ isProtected s = true := by
  have hids : s.id ≠ "" := str_ne_empty_of_len s.id (hlen s hs)
  have hne8 : take8 s.id ≠ "" := take8_ne_empty s.id (hlen s hs)
  have heff : effShort s = take8 s.id := by
    unfold effShort
    rw [hshort s hs]
    have : ¬ (s.id ≠ "" ∧ 8 ≤ s.id.length ∧ take8 s.id = "") := by
      intro ⟨_, _, h3⟩
      exact hne8 h3
    rw [if_neg this]
  have hkey : ∀ x, x ∈ lockedIdsInline snaps → (x = s.id ∨ x = take8 s.id) →
      isProtected s = true := by
    intro x hmem hx
    obtain ⟨t, ht, hpt, hkt⟩ := (mem_lockedIdsInline snaps x).1 hmem
    have hst : take8 s.id = take8 t.id := by
      rcases (mem_idKeys_norm t (hlen t ht) (hshort t ht) x).1 hkt with hxt | hxt
      · rcases hx with hxs | hxs
        · exact congrArg take8 (hxs.symm.trans hxt)
        · exact (take8_take8 s.id).symm.trans (congrArg take8 (hxs.symm.trans hxt))
      · rcases hx with hxs | hxs
        · exact (congrArg take8 (hxs.symm.trans hxt)).trans (take8_take8 t.id)
        · exact hxs.symm.trans hxt
    rw [eq_of_take8_eq hdist hs ht hst]
    exact hpt
  constructor
  · rintro (⟨-, hc⟩ | ⟨-, hc⟩)
    · exact hkey s.id ((contains_iff_mem _ _).1 hc) (Or.inl rfl)
    · rw [heff] at hc
      exact hkey (take8 s.id) ((contains_iff_mem _ _).1 hc) (Or.inr rfl)
  · intro hp
    left
    refine ⟨hids, (contains_iff_mem _ _).2 ?_⟩
    exact (mem_lockedIdsInline snaps s.id).2
      ⟨s, hs, hp, (mem_idKeys_norm s (hlen s hs) (hshort s hs) s.id).2 (Or.inl rfl)⟩

/-- On a listing where the locked-set test agrees with the sentinel tag and
every id is non-empty, the `unlocked` slice is exactly the unprotected
snapshots, in listing order. -/
theorem unlockedSnaps_eq_filter (locked : List String) (l : List Snap)
    (h : ∀ s ∈ l, s.id ≠ ""
      ∧ (((s.id ≠ "" ∧ locked.contains s.id = true)
          ∨ (effShort s ≠ "" ∧ locked.contains (effShort s) = true))
          ↔ isProtected s = true)) :
    unlockedSnaps l locked
      = (l.filter (fun s => !isProtected s)).map (fun s => (s.id, s.time)) := by
  induction l with
  | nil => rfl
  | cons s rest ih =>
      have hs := h s (by simp)
      have hrest := ih (fun x hx => h x (by simp [hx]))
      unfold unlockedSnaps at hrest ⊢
      rw [List.filterMap_cons]
      by_cases hp : isProtected s = true
      · have hcond : (s.id ≠ "" ∧ locked.contains s.id = true)
            ∨ (effShort s ≠ "" ∧ locked.contains (effShort s) = true) := hs.2.2 hp
        rw [if_pos hcond, hrest, List.filter_cons, if_neg (by simp [hp])]
      · have hcond : ¬ ((s.id ≠ "" ∧ locked.contains s.id = true)
            ∨ (effShort s ≠ "" ∧ locked.contains (effShort s) = true)) := by
          intro hcon
          exact hp (hs.2.1 hcon)
        rw [if_neg hcond, if_neg (by simpa using hs.1), hrest, List.filter_cons,
          if_pos (by simp [hp])]
        simp

/-- The retention pass under an exceeded count ceiling and an inline tag
listing, rejection shape. -/
theorem retentionPrune_allLocked_shape (snaps : List Snap) (fallback : Option (List Snap))
    (M : Nat) (hM : ¬ M = 0) (hN : ¬ snaps.length < M)
    (hany : snaps.any (fun s => s.tags.isSome) = true)
    (hnil : sortByTime (unlockedSnaps snaps (lockedIdsInline snaps)) = []) :
    retentionPrune snaps fallback M = .allLocked := by
  simp [retentionPrune, hM, hN, hany, hnil]

/-- The retention pass under an exceeded count ceiling and an inline tag
listing, deletion shape. -/
theorem retentionPrune_deleted_shape (snaps : List Snap) (fallback : Option (List Snap))
    (M : Nat) (hM : ¬ M = 0) (hN : ¬ snaps.length < M)
    (hany : snaps.any (fun s => s.tags.isSome) = true)
    (hne : ¬ sortByTime (unlockedSnaps snaps (lockedIdsInline snaps)) = []) :
    retentionPrune snaps fallback M
      = .deleted (((sortByTime (unlockedSnaps snaps (lockedIdsInline snaps))).take
          (snaps.length - M + 1)).map Prod.fst) := by
  simp [retentionPrune, hM, hN, hany, hne]

def c1Snaps : List Snap :=
  [ { id := "aaaaaaaa11", shortId := "aaaaaaaa", time := 1, tags := some ["locked"] },
    { id := "bbbbbbbb22", shortId := "bbbbbbbb", time := 2, tags := some ["locked"] },
    { id := "cccccccc33", shortId := "cccccccc", time := 3, tags := some [] } ]

/-- C1 counterexample: three snapshots, ceiling 2, two of them protected.
The claim demands exactly N − M + 1 = 2 deletions drawn from outside the
protected set, but only one unprotected snapshot exists and the code deletes
exactly that one. -/
theorem c1_counterexample :
    retentionPrune c1Snaps none 2 = .deleted ["cccccccc33"]
    ∧ c1Snaps.length - 2 + 1 = 2
    ∧ (["cccccccc33"] : List String).length ≠ 2 := by
  refine ⟨by decide, by decide, by decide⟩

/-- C1 (amended): with a positive ceiling M, N = |snaps| ≥ M, tags inlined in
the listing, and well-formed ids (length ≥ 8, short id = 8-character prefix,
pairwise distinct prefixes): if every snapshot is protected the request is
rejected with the "all snapshots are locked" error and nothing is deleted;
otherwise exactly min(N − M + 1, |unprotected|) snapshots are deleted, all
drawn from outside the protected set, oldest first (each via an individual
forget-and-prune invocation, before the new snapshot is created): the deleted
list is ascending in creation time and no deleted snapshot is younger than
any surviving unprotected one. -/
theorem c1_amended_retention (snaps : List Snap) (fallback : Option (List Snap)) (M : Nat)
    (hM : 0 < M) (hN : M ≤ snaps.length)
    (htags : ∀ s ∈ snaps, s.tags.isSome = true)
    (hlen : ∀ s ∈ snaps, 8 ≤ s.id.length)
    (hshort : ∀ s ∈ snaps, s.shortId = take8 s.id)
    (hdist : snaps.Pairwise (fun a b => take8 a.id ≠ take8 b.id)) :
    ((∀ s ∈ snaps, isProtected s = true) → retentionPrune snaps fallback M = .allLocked)
    ∧ ((∃ s ∈ snaps, isProtected s = false) →
        ∃ ds, retentionPrune snaps fallback M = .deleted ds
          ∧ ds.length = min (snaps.length - M + 1) (snaps.countP (fun s => !(isProtected s)))
          ∧ (∀ d ∈ ds, ∃ s ∈ snaps, isProtected s = false ∧ s.id = d)
          ∧ (∃ pairs : List (String × Int),
              ds = pairs.map Prod.fst
              ∧ pairs.Pairwise (fun a b => a.2 ≤ b.2)
              ∧ (∀ p ∈ pairs, ∃ s ∈ snaps, isProtected s = false ∧ s.id = p.1 ∧ s.time = p.2)
              ∧ (∀ p ∈ pairs, ∀ s ∈ snaps, isProtected s = false → s.id ∉ ds →
                  p.2 ≤ s.time))) := by
  have hMne : ¬ M = 0 := by omega
  have hNlt : ¬ snaps.length < M := by omega
  have hnil : snaps ≠ [] := by
    intro h
    rw [h] at hN
    simp at hN
    omega
  have hany : snaps.any (fun s => s.tags.isSome) = true := by
    cases hsn : snaps with
    | nil => exact absurd hsn hnil
    | cons a rest =>
        have ha := htags a (by rw [hsn]; simp)
        simp [ha]
  have hids : ∀ s ∈ snaps, s.id ≠ "" := fun s hs => str_ne_empty_of_len _ (hlen s hs)
  have hU : unlockedSnaps snaps (lockedIdsInline snaps)
      = (snaps.filter (fun s => !(isProtected s))).map (fun s => (s.id, s.time)) :=
    unlockedSnaps_eq_filter _ snaps
      (fun s hs => ⟨hids s hs, locked_classification snaps hlen hshort hdist s hs⟩)
  haveI : IsTrans (String × Int) (fun a b => a.2 ≤ b.2) :=
    ⟨fun _ _ _ h1 h2 => le_trans h1 h2⟩
  haveI : IsTotal (String × Int) (fun a b => a.2 ≤ b.2) :=
    ⟨fun a b => le_total a.2 b.2⟩
  constructor
  · intro hall
    apply retentionPrune_allLocked_shape snaps fallback M hMne hNlt hany
    have hfil : snaps.filter (fun s => !(isProtected s)) = [] := by
      rw [List.filter_eq_nil_iff]
      intro a ha
      simp [hall a ha]
    rw [hU, hfil]
    rfl
  · rintro ⟨s0, hs0, hp0⟩
    have hfilne : snaps.filter (fun s => !(isProtected s)) ≠ [] := by
      intro h
      have h2 := List.filter_eq_nil_iff.1 h s0 hs0
      simp [hp0] at h2
    have hUne : unlockedSnaps snaps (lockedIdsInline snaps) ≠ [] := by
      rw [hU]
      simpa [List.map_eq_nil_iff] using hfilne
    have hperm : List.Perm (sortByTime (unlockedSnaps snaps (lockedIdsInline snaps)))
        (unlockedSnaps snaps (lockedIdsInline snaps)) := List.perm_insertionSort _ _
    have hSne : ¬ sortByTime (unlockedSnaps snaps (lockedIdsInline snaps)) = [] := by
      intro h
      exact hUne ((h ▸ hperm).symm.eq_nil)
    have hsorted : (sortByTime (unlockedSnaps snaps (lockedIdsInline snaps))).Pairwise
        (fun a b => a.2 ≤ b.2) := List.sorted_insertionSort _ _
    refine ⟨((sortByTime (unlockedSnaps snaps (lockedIdsInline snaps))).take
        (snaps.length - M + 1)).map Prod.fst,
      retentionPrune_deleted_shape snaps fallback M hMne hNlt hany hSne, ?_, ?_, ?_⟩
    · rw [List.length_map, List.length_take, hperm.length_eq, hU, List.length_map,
        List.countP_eq_length_filter]
    · intro d hd
      obtain ⟨p, hpmem, rfl⟩ := List.mem_map.1 hd
      have hpS : p ∈ sortByTime (unlockedSnaps snaps (lockedIdsInline snaps)) :=
        (List.take_sublist _ _).subset hpmem
      have hpU := hperm.subset hpS
      rw [hU] at hpU
      obtain ⟨t, htf, hpt⟩ := List.mem_map.1 hpU
      have h2 := List.mem_filter.1 htf
      refine ⟨t, h2.1, by simpa using h2.2, ?_⟩
      rw [← hpt]
    · refine ⟨(sortByTime (unlockedSnaps snaps (lockedIdsInline snaps))).take
          (snaps.length - M + 1), rfl,
        List.Pairwise.sublist (List.take_sublist _ _) hsorted, ?_, ?_⟩
      · intro p hp
        have hpS : p ∈ sortByTime (unlockedSnaps snaps (lockedIdsInline snaps)) :=
          (List.take_sublist _ _).subset hp
        have hpU := hperm.subset hpS
        rw [hU] at hpU
        obtain ⟨t, htf, hpt⟩ := List.mem_map.1 hpU
        have h2 := List.mem_filter.1 htf
        cases hpt
        exact ⟨t, h2.1, by simpa using h2.2, rfl, rfl⟩
      · intro p hp t ht hprot hnotin
        have hqU : (t.id, t.time) ∈ unlockedSnaps snaps (lockedIdsInline snaps) := by
          rw [hU]
          exact List.mem_map.2 ⟨t, List.mem_filter.2 ⟨ht, by simp [hprot]⟩, rfl⟩
        have hqS : (t.id, t.time) ∈ sortByTime (unlockedSnaps snaps (lockedIdsInline snaps)) :=
          hperm.symm.subset hqU
        have hqtake : (t.id, t.time) ∉ (sortByTime (unlockedSnaps snaps
            (lockedIdsInline snaps))).take (snaps.length - M + 1) := by
          intro hmem
          exact hnotin (List.mem_map.2 ⟨(t.id, t.time), hmem, rfl⟩)
        have hsplit := hqS
        rw [← List.take_append_drop (snaps.length - M + 1)
          (sortByTime (unlockedSnaps snaps (lockedIdsInline snaps)))] at hsplit
        have hqdrop : (t.id, t.time) ∈ (sortByTime (unlockedSnaps snaps
            (lockedIdsInline snaps))).drop (snaps.length - M + 1) := by
          rcases List.mem_append.1 hsplit with h | h
          · exact absurd h hqtake
          · exact h
        have hsp := hsorted
        rw [← List.take_append_drop (snaps.length - M + 1)
          (sortByTime (unlockedSnaps snaps (lockedIdsInline snaps)))] at hsp
        exact (List.pairwise_append.1 hsp).2.2 p hp _ hqdrop

def c1WitnessSnaps : List Snap :=
  [ { id := "dddddddd44", shortId := "dddddddd", time := 9, tags := some [] },
    { id := "eeeeeeee55", shortId := "eeeeeeee", time := 4, tags := some ["locked"] },
    { id := "ffffffff66", shortId := "ffffffff", time := 6, tags := some [] } ]

/-- C1 witness: ceiling 2 on three snapshots, one protected: the two
unprotected ones are deleted, oldest first. -/
theorem c1_witness :
    ∃ ds, retentionPrune c1WitnessSnaps none 2 = .deleted ds
      ∧ ds.length = min (c1WitnessSnaps.length - 2 + 1)
          (c1WitnessSnaps.countP (fun s => !(isProtected s)))
      ∧ (∀ d ∈ ds, ∃ s ∈ c1WitnessSnaps, isProtected s = false ∧ s.id = d)
      ∧ (∃ pairs : List (String × Int),
          ds = pairs.map Prod.fst
          ∧ pairs.Pairwise (fun a b => a.2 ≤ b.2)
          ∧ (∀ p ∈ pairs, ∃ s ∈ c1WitnessSnaps,
              isProtected s = false ∧ s.id = p.1 ∧ s.time = p.2)
          ∧ (∀ p ∈ pairs, ∀ s ∈ c1WitnessSnaps, isProtected s = false → s.id ∉ ds →
              p.2 ≤ s.time)) :=
  (c1_amended_retention c1WitnessSnaps none 2 (by decide) (by decide) (by decide)
    (by decide) (by decide) (by decide)).2
    ⟨{ id := "dddddddd44", shortId := "dddddddd", time := 9, tags := some [] },
      by decide, by decide⟩

/-! ## Claim C8: supporting lemmas -/

theorem splitSegs_ne_nil (l : List Char) : splitSegs l ≠ [] := by
  cases l with
  | nil => simp [splitSegs]
  | cons c rest =>
      unfold splitSegs
      by_cases hc : c = '/'
      · simp [hc]
      · simp only [if_neg hc]
        cases splitSegs rest with
        | nil => simp
        | cons h t => simp

theorem splitSegs_no_slash (l : List Char) (h : '/' ∉ l) : splitSegs l = [l] := by
  induction l with
  | nil => rfl
  | cons c rest ih =>
      have hc : ¬ c = '/' := fun he => h (by rw [he]; simp)
      have hr : '/' ∉ rest := fun he => h (by simp [he])
      unfold splitSegs
      rw [if_neg hc, ih hr]

theorem splitSegs_cons (c : Char) (rest : List Char) :
    splitSegs (c :: rest)
      = if c = '/' then [] :: splitSegs rest
        else
          match splitSegs rest with
          | [] => [[c]]
          | h :: t => (c :: h) :: t := rfl

theorem splitSegs_append (xs ys : List Char) :
    splitSegs (xs ++ '/' :: ys) = splitSegs xs ++ splitSegs ys := by
  induction xs with
  | nil => simp [splitSegs]
  | cons c rest ih =>
      rw [List.cons_append, splitSegs_cons, splitSegs_cons c rest]
      by_cases hc : c = '/'
      · rw [if_pos hc, if_pos hc, ih]
        rfl
      · rw [if_neg hc, if_neg hc, ih]
        cases hsr : splitSegs rest with
        | nil => exact absurd hsr (splitSegs_ne_nil rest)
        | cons h t => rfl

theorem archiveIdOk_shape (id : String) (h : archiveIdOk id = true) :
    ∃ c rest, id.toList = c :: rest ∧ c.isAlphanum = true ∧ rest.all idChar = true := by
  unfold archiveIdOk at h
  cases hl : id.toList with
  | nil => rw [hl] at h; simp at h
  | cons c rest =>
      rw [hl] at h
      simp only [Bool.and_eq_true] at h
      exact ⟨c, rest, rfl, h.1.1, h.2⟩

theorem alnum_ne_slash (c : Char) (h : c.isAlphanum = true) : c ≠ '/' := by
  intro he
  rw [he] at h
  exact absurd h (by decide)

theorem alnum_ne_dot (c : Char) (h : c.isAlphanum = true) : c ≠ '.' := by
  intro he
  rw [he] at h
  exact absurd h (by decide)

theorem idChar_ne_slash (c : Char) (h : idChar c = true) : c ≠ '/' := by
  intro he
  rw [he] at h
  exact absurd h (by decide)

theorem archiveIdOk_no_slash (id : String) (h : archiveIdOk id = true) : '/' ∉ id.toList := by
  obtain ⟨c, rest, hl, hc, hall⟩ := archiveIdOk_shape id h
  rw [hl]
  intro hmem
  rcases List.mem_cons.1 hmem with he | hr
  · exact alnum_ne_slash c hc he.symm
  · exact idChar_ne_slash '/' (List.all_eq_true.1 hall '/' hr) rfl

theorem hasDotDot_not_ok (id : String) (h : hasDotDotSeg id = true) :
    archiveIdOk id = false := by
  by_contra hcon
  have hok : archiveIdOk id = true := by
    cases h2 : archiveIdOk id
    · exact absurd h2 hcon
    · rfl
  obtain ⟨c, rest, hl, hc, -⟩ := archiveIdOk_shape id hok
  have hns := archiveIdOk_no_slash id hok
  unfold hasDotDotSeg at h
  rw [splitSegs_no_slash _ hns] at h
  simp at h
  have hl2 : id.data = c :: rest := hl
  rw [hl2] at h
  have hcd : c = '.' := by
    have h3 := congrArg List.head? h
    simpa using h3
  rw [hcd] at hc
  exact absurd hc (by decide)

theorem commonPreLen_self_append (l r : List (List Char)) :
    commonPreLen l (l ++ r) = l.length := by
  induction l with
  | nil => cases r <;> rfl
  | cons a as ih => simp [commonPreLen, ih]

theorem joinChars_append_last (C : List (List Char)) (x : List Char) (h : C ≠ []) :
    joinChars (C ++ [x]) = joinChars C ++ '/' :: x := by
  induction C with
  | nil => exact absurd rfl h
  | cons a as ih =>
      cases as with
      | nil => rfl
      | cons b bs =>
          have h2 := ih (by simp)
          show a ++ '/' :: joinChars ((b :: bs) ++ [x]) = (a ++ '/' :: joinChars (b :: bs)) ++ '/' :: x
          rw [h2]
          simp

theorem cleanSegs_base_append (L : List Char) (h0 : L ≠ []) (h1 : L ≠ ['.'])
    (h2 : L ≠ ['.', '.']) :
    cleanSegs true (splitSegs resticArchiveBaseDir.toList ++ [L])
      = [['v','a','r'], ['l','i','b'], ['p','t','e','r','o','d','a','c','t','y','l'],
         ['r','e','s','t','i','c'], ['a','r','c','h','i','v','e']] ++ [L] := by
  unfold cleanSegs
  rw [List.foldl_append]
  have hbase : List.foldl (cleanStep true) [] (splitSegs resticArchiveBaseDir.toList)
      = [['v','a','r'], ['l','i','b'], ['p','t','e','r','o','d','a','c','t','y','l'],
         ['r','e','s','t','i','c'], ['a','r','c','h','i','v','e']] := rfl
  rw [hbase]
  simp only [List.foldl_cons, List.foldl_nil]
  unfold cleanStep
  rw [if_neg (by simp [h0, h1]), if_neg h2]

theorem cleanPath_base_slash (L : List Char) (h0 : L ≠ []) (h1 : L ≠ ['.'])
    (h2 : L ≠ ['.', '.']) (hns : '/' ∉ L) :
    cleanPath (String.mk (resticArchiveBaseDir.toList ++ '/' :: L))
      = String.mk (resticArchiveBaseDir.toList ++ '/' :: L) := by
  have hne : String.mk (resticArchiveBaseDir.toList ++ '/' :: L) ≠ "" := by
    rw [Ne, mk_eq_empty_iff]
    simp
  have htl : (String.mk (resticArchiveBaseDir.toList ++ '/' :: L)).toList
      = resticArchiveBaseDir.toList ++ '/' :: L := rfl
  have hhd : ((resticArchiveBaseDir.toList ++ '/' :: L).head? == some '/') = true := rfl
  unfold cleanPath
  rw [if_neg hne, htl, hhd, splitSegs_append, splitSegs_no_slash L hns]
  simp only [cleanSegs_base_append L h0 h1 h2]
  rw [if_pos trivial]
  unfold joinSegs
  rw [joinChars_append_last _ _ (by simp)]
  rfl

theorem relPath_base_target (L : List Char) (h0 : L ≠ []) (h1 : L ≠ ['.'])
    (h2 : L ≠ ['.', '.']) (hns : '/' ∉ L) :
    relPath resticArchiveBaseDir (String.mk (resticArchiveBaseDir.toList ++ '/' :: L))
      = some (String.mk L) := by
  have hcb : cleanPath resticArchiveBaseDir = resticArchiveBaseDir := by decide
  have htne : String.mk (resticArchiveBaseDir.toList ++ '/' :: L) ≠ resticArchiveBaseDir := by
    intro he
    have h3 := congrArg String.toList he
    rw [toList_mk] at h3
    have h4 := congrArg List.length h3
    rw [List.length_append] at h4
    simp at h4
  unfold relPath
  rw [hcb, cleanPath_base_slash L h0 h1 h2 hns, if_neg htne,
    if_neg (by decide : ¬ (resticArchiveBaseDir = "."))]
  have hbs : (resticArchiveBaseDir.toList.head? == some '/') = true := rfl
  have hts : ((String.mk (resticArchiveBaseDir.toList ++ '/' :: L)).toList.head? == some '/')
      = true := rfl
  simp only []
  rw [hbs, hts, if_neg (by simp)]
  rw [show (String.mk (resticArchiveBaseDir.toList ++ '/' :: L)).toList
      = resticArchiveBaseDir.toList ++ '/' :: L from rfl]
  rw [splitSegs_append, splitSegs_no_slash L hns, List.filter_append]
  have hfL : List.filter (fun x => decide (x ≠ [])) [L] = [L] := by simp [h0]
  rw [hfL]
  rfl

/-- Every identifier that passes the allow-list pattern resolves to the path
directly under the archive root formed by joining root and identifier. -/
theorem safeArchivePath_ok (id : String) (h : archiveIdOk id = true) :
    safeArchivePath id = some (String.mk (resticArchiveBaseDir.toList ++ '/' :: id.toList)) := by
  obtain ⟨c, rest, hL, hc, hall⟩ := archiveIdOk_shape id h
  have hns : '/' ∉ id.toList := archiveIdOk_no_slash id h
  have h0 : id.toList ≠ [] := by rw [hL]; simp
  have h1 : id.toList ≠ ['.'] := by
    rw [hL]
    intro he
    injection he with he1 he2
    exact alnum_ne_dot c hc he1
  have h2 : id.toList ≠ ['.', '.'] := by
    rw [hL]
    intro he
    injection he with he1 he2
    exact alnum_ne_dot c hc he1
  have hidne : id ≠ "" := by
    intro he
    rw [he] at h0
    exact h0 rfl
  have hcb : cleanPath resticArchiveBaseDir = resticArchiveBaseDir := by decide
  have hseq : resticArchiveBaseDir ++ "/" ++ id
      = String.mk (resticArchiveBaseDir.toList ++ '/' :: id.toList) := rfl
  have hjoin : joinPath resticArchiveBaseDir id
      = cleanPath (String.mk (resticArchiveBaseDir.toList ++ '/' :: id.toList)) := by
    unfold joinPath
    rw [if_neg (by simp [hidne]), if_neg (by decide : ¬ (resticArchiveBaseDir = "")),
      if_neg hidne, hseq]
  have hr0 : String.mk id.toList ≠ "" := by
    intro he
    exact h0 ((mk_eq_empty_iff id.toList).1 he)
  have hr1 : String.mk id.toList ≠ "." := by
    intro he
    have h3 := congrArg String.toList he
    rw [toList_mk] at h3
    exact h1 h3
  have hr2 : String.mk id.toList ≠ ".." := by
    intro he
    have h3 := congrArg String.toList he
    rw [toList_mk] at h3
    exact h2 h3
  have hdd : hasDotDotSeg (String.mk id.toList) = false := by
    unfold hasDotDotSeg
    rw [toList_mk, splitSegs_no_slash _ hns]
    simpa using h2
  unfold safeArchivePath
  rw [if_neg (by simp [h]), hcb]
  simp only []
  rw [hjoin]
  simp only [cleanPath_base_slash id.toList h0 h1 h2 hns]
  rw [relPath_base_target id.toList h0 h1 h2 hns]
  simp only []
  rw [if_neg (by simp only [not_or]; exact ⟨hr1, hr0, hr2, by simp only [Bool.not_eq_true]; exact hdd⟩)]

/-- C8: archive identifiers are validated against the allow-list pattern and
the join-then-containment check before any file-system operation.  An
identifier containing a traversal segment is rejected with the
invalid-archive-id response and the handler touches no file-system path; any
identifier that passes validation resolves to a path directly under the
archive root (no separator, no `..` segment in the final component); and any
rejected identifier causes no file-system access at all. -/
theorem c8_archive_id_validation (id : String) (f : String → Option Bool) :
    (hasDotDotSeg id = true →
        safeArchivePath id = none
        ∧ downloadArchivedRepo id f = (.invalidId, []))
    ∧ (∀ t, safeArchivePath id = some t →
        archiveIdOk id = true
        ∧ t = String.mk (resticArchiveBaseDir.toList ++ '/' :: id.toList)
        ∧ '/' ∉ id.toList
        ∧ hasDotDotSeg id = false)
    ∧ (safeArchivePath id = none → downloadArchivedRepo id f = (.invalidId, [])) := by
  have hnone : safeArchivePath id = none → downloadArchivedRepo id f = (.invalidId, []) := by
    intro hn
    unfold downloadArchivedRepo
    rw [hn]
  refine ⟨?_, ?_, hnone⟩
  · intro hdd
    have hok := hasDotDot_not_ok id hdd
    have hn : safeArchivePath id = none := by
      unfold safeArchivePath
      rw [if_pos (by simp [hok])]
    exact ⟨hn, hnone hn⟩
  · intro t ht
    by_cases hok : archiveIdOk id = true
    · have hres := safeArchivePath_ok id hok
      rw [hres] at ht
      have hteq : t = String.mk (resticArchiveBaseDir.toList ++ '/' :: id.toList) :=
        (Option.some.inj ht).symm
      refine ⟨hok, hteq, archiveIdOk_no_slash id hok, ?_⟩
      cases hdd : hasDotDotSeg id
      · rfl
      · rw [hasDotDot_not_ok id hdd] at hok
        exact absurd hok (by decide)
    · have hn : safeArchivePath id = none := by
        unfold safeArchivePath
        rw [if_pos hok]
      rw [hn] at ht
      exact Option.noConfusion ht

set_option maxRecDepth 100000 in
/-- C8 witness: `../secrets` is rejected with no file-system access, while a
plain identifier resolves to the path under the archive root. -/
theorem c8_witness :
    hasDotDotSeg "../secrets" = true
    ∧ safeArchivePath "../secrets" = none
    ∧ downloadArchivedRepo "../secrets" (fun _ => some true) = (.invalidId, [])
    ∧ safeArchivePath "abc" = some "/var/lib/pterodactyl/restic/archive/abc" := by
  have h1 := (c8_archive_id_validation "../secrets" (fun _ => some true)).1 (by decide)
  exact ⟨by decide, h1.1, h1.2, by decide⟩

end ResticWings
